import Mathlib

/-!
# MySQL session database of iris-contrib (`sessions/sessiondb/mysql`)

A shallow embedding of `model.go` (the `SessionData` bag and its JSON codec) and of
`database.go` (the `sessions.Database` operations), followed by the properties of the
public contract.

Modelling of what lies outside the package:

* the table behind `*gorm.DB` is a list of rows (`Store`), restricted to the columns the
  package reads or writes (`session_key`, `session_data`, `expires`) and to the rows whose
  soft-delete marker is unset, which are the only rows any statement of the package can see
  (`Delete` on a model with a `gorm.DeletedAt` column stamps the marker, so the row leaves
  this table);
* GORM builds the condition of `Where(GormSession{SessionKey: sid})` from the non-zero
  fields of the struct: `session_key = sid` for a non-empty identifier, no condition at all
  for the empty one (`Gorm.condition`). A lookup with the empty identifier therefore returns
  the first row of the table, and an `Updates` or `Delete` with it is refused by GORM
  (`WHERE conditions required`);
* the `session_data` cell of a row is `Value()` of the bag that was written, and every read
  decodes it with `Scan`. The table keeps the written bag in place of the cell, and a read
  returns the bag as `encoding/json` gives it back (`SessionData.readBack`): a number comes
  back as a `float64`, a `[]byte` as its base64 string;
* every statement may be refused; the refusals are given by `Env`, together with the
  reading of the clock; a statement that is accepted and matches no row is no error;
* `encoding/json` on whole documents is modelled on the `null` and empty-object documents,
  and taken as a parameter (`JSONCodec`) on every other document;
* `sessions.DefaultTranscoder` is a parameter (`Transcoder`).
-/

namespace SessionDB

/-! ## Go values -/

/-- A `time.Time`, counted in nanoseconds from the zero `time.Time` (the value `0`). -/
abbrev GoTime := Int

/-- A `time.Duration`, in nanoseconds. -/
abbrev Duration := Int

/-- A `[]byte`. -/
abbrev Bytes := List UInt8

/-- A Go `error`: `none` is `nil`, `some msg` an error with that message. -/
abbrev GoError := Option String

/-- A Go `interface{}` value, by dynamic type. `other` carries the name of any further
dynamic type and its printed form; it stands for the values that `encoding/json` itself
produces (`float64`, `[]interface {}`, `map[string]interface {}`). -/
inductive GoValue where
  | nil
  | bytes (data : Bytes)
  | string (s : String)
  | bool (b : Bool)
  | int (n : Int)
  | other (goType : String) (printed : String)
  deriving DecidableEq

/-- The dynamic type of a value as `%T` prints it. -/
def GoValue.typeName : GoValue → String
  | .nil => "<nil>"
  | .bytes _ => "[]uint8"
  | .string _ => "string"
  | .bool _ => "bool"
  | .int _ => "int"
  | .other goType _ => goType

/-- The value as `fmt.Sprint` prints it. -/
def GoValue.sprint : GoValue → String
  | .nil => "<nil>"
  | .bytes data => "[" ++ " ".intercalate (data.map fun c => toString c.toNat) ++ "]"
  | .string s => s
  | .bool b => if b then "true" else "false"
  | .int n => toString n
  | .other _ printed => printed

/-- The 64 digits of the standard base64 alphabet. -/
def base64Digits : List Char :=
  "ABCDEFGHIJKLMNOPQRSTUVWXYZabcdefghijklmnopqrstuvwxyz0123456789+/".toList

/-- The base64 digit of a number below 64. -/
def base64Digit (n : Nat) : Char :=
  base64Digits.getD n '='

/-- Standard base64 with padding, the encoding `json.Marshal` gives a `[]byte`. -/
def base64 : Bytes → List Char
  | [] => []
  | [a] => [base64Digit (a.toNat / 4), base64Digit (a.toNat % 4 * 16), '=', '=']
  | [a, b] =>
    [base64Digit (a.toNat / 4), base64Digit (a.toNat % 4 * 16 + b.toNat / 16),
      base64Digit (b.toNat % 16 * 4), '=']
  | a :: b :: c :: rest =>
    [base64Digit (a.toNat / 4), base64Digit (a.toNat % 4 * 16 + b.toNat / 16),
      base64Digit (b.toNat % 16 * 4 + c.toNat / 64), base64Digit (c.toNat % 64)] ++ base64 rest

/-- The value that `json.Unmarshal` stores into an `interface{}` for the JSON text that
`json.Marshal` writes for the value: nil, booleans and strings come back as they are, a
number comes back as a `float64`, a `[]byte` as the string of its base64 encoding. -/
def GoValue.jsonDecoded : GoValue → GoValue
  | .nil => .nil
  | .bytes data => .string (String.mk (base64 data))
  | .string s => .string s
  | .bool b => .bool b
  | .int n => .other "float64" (toString n)
  | .other goType printed => .other goType printed

/-- A Go `map[string]interface{}` that is not nil: finitely many entries, one per key. -/
abbrev GoMap := AList (fun _ : String => GoValue)

/-- `sessions.LifeTime`; `LifeTime{}` is the value with the zero `Time`. -/
structure LifeTime where
  Time : GoTime
  deriving DecidableEq

/-- The empty `sessions.LifeTime{}`. -/
def LifeTime.empty : LifeTime := ⟨0⟩

/-! ## `encoding/json`, as far as the codec depends on it -/

/-- The part of `encoding/json` that is not modelled: `encodeObject` is `json.Marshal` on a
map with at least one entry, `decodeDocument` is the decoding of a document that is neither
`null` nor an empty object into its members. -/
structure JSONCodec where
  encodeObject : GoMap → Except String Bytes
  decodeDocument : Bytes → Except String GoMap

/-- JSON white space: space, tab, carriage return, line feed. -/
def isSpace (c : UInt8) : Bool :=
  c == 32 || c == 9 || c == 13 || c == 10

/-- The document without its leading and trailing white space. -/
def trimSpace (b : Bytes) : Bytes :=
  ((b.dropWhile isSpace).reverse.dropWhile isSpace).reverse

/-- The bytes of the JSON literal `null`. -/
def nullBytes : Bytes := [110, 117, 108, 108]

/-- The two bytes of the canonical empty object: an opening and a closing brace. -/
def emptyObjectBytes : Bytes := [123, 125]

/-- The document is the literal `null`, white space around it allowed. -/
def isNullDocument (b : Bytes) : Bool :=
  trimSpace b == nullBytes

/-- The document is an object without members: an opening brace, optional white space, a
closing brace, white space around it allowed. -/
def isEmptyObjectDocument (b : Bytes) : Bool :=
  match trimSpace b with
  | 123 :: rest => rest.dropWhile isSpace == [125]
  | _ => false

/-- `json.Marshal(m)` for a `map[string]interface{}`: a nil map is `null`, a map without
entries the empty object. -/
def jsonMarshal (codec : JSONCodec) (m : Option GoMap) : Except String Bytes :=
  match m with
  | none => .ok nullBytes
  | some m => if m.entries.length = 0 then .ok emptyObjectBytes else codec.encodeObject m

/-- `json.Unmarshal(b, &m)` for a `map[string]interface{}`: `null` sets the map to nil, an
object allocates the map when it is nil and stores its members into it, keeping the entries
of other keys. The result is the new value of `m`. -/
def jsonUnmarshal (codec : JSONCodec) (b : Bytes) (m : Option GoMap) :
    Except String (Option GoMap) :=
  if isNullDocument b then .ok none
  else if isEmptyObjectDocument b then .ok (some (m.getD ∅))
  else
    match codec.decodeDocument b with
    | .error e => .error e
    | .ok members => .ok (some (members ∪ m.getD ∅))

/-! ## `model.go` -/

/-- `SessionData`: the bag of one session; `data = none` is the nil map. -/
structure SessionData where
  data : Option GoMap

/-- `GormSession`: one row, with the columns the package reads or writes. -/
structure GormSession where
  SessionKey : String
  SessionData : SessionData
  Expires : GoTime

deriving instance DecidableEq for SessionData

deriving instance DecidableEq for GormSession

/-- `SessionData.Len`: `len(sd.data)`. -/
def SessionData.Len (sd : SessionData) : Nat :=
  match sd.data with
  | none => 0
  | some m => m.entries.length

/-- `SessionData.MarshalJSON`. -/
def SessionData.MarshalJSON (codec : JSONCodec) (sd : SessionData) : Except String Bytes :=
  jsonMarshal codec sd.data

/-- `SessionData.UnmarshalJSON`: the error and the receiver afterwards. -/
def SessionData.UnmarshalJSON (codec : JSONCodec) (sd : SessionData) (b : Bytes) :
    GoError × SessionData :=
  match jsonUnmarshal codec b sd.data with
  | .ok d => (none, ⟨d⟩)
  | .error e => (some e, sd)

/-- `SessionData.Scan`: only a `[]byte` is accepted. -/
def SessionData.Scan (codec : JSONCodec) (sd : SessionData) (value : GoValue) :
    GoError × SessionData :=
  match value with
  | .bytes b => sd.UnmarshalJSON codec b
  | v => (some ("Failed to unmarshal SessionData value:" ++ v.sprint), sd)

/-- `SessionData.Value`: the stored cell. -/
def SessionData.Value (codec : JSONCodec) (sd : SessionData) : Except String Bytes :=
  if sd.Len = 0 then .ok emptyObjectBytes else sd.MarshalJSON codec

/-- `SessionData.Get`: the value and the error. -/
def SessionData.Get (sd : SessionData) (key : String) : GoValue × GoError :=
  match sd.data.bind (AList.lookup key) with
  | none => (.string "", some ("key " ++ key ++ " not exist"))
  | some value => (value, none)

/-- `SessionData.Set`. -/
def SessionData.Set (sd : SessionData) (key : String) (value : GoValue) : SessionData :=
  ⟨some ((sd.data.getD ∅).insert key value)⟩

/-- `SessionData.Delete`: `delete` on a nil map does nothing. -/
def SessionData.Delete (sd : SessionData) (key : String) : SessionData :=
  ⟨sd.data.map (AList.erase key)⟩

/-- `SessionData.Clear`. -/
def SessionData.Clear (_sd : SessionData) : SessionData :=
  ⟨some ∅⟩

/-- `SessionData.Visit`: the calls of the callback, in the order of the entries. -/
def SessionData.Visit (sd : SessionData) : List (String × GoValue) :=
  match sd.data with
  | none => []
  | some m => m.entries.map fun e => (e.1, e.2)

/-- The entries of a map with every value as `encoding/json` gives it back. -/
def decodedEntries (l : List (Sigma fun _ : String => GoValue)) :
    List (Sigma fun _ : String => GoValue) :=
  l.map fun e => ⟨e.1, e.2.jsonDecoded⟩

/-- The map that `json.Unmarshal` builds from the object `json.Marshal` wrote for `m`. -/
def GoMap.decoded (m : GoMap) : GoMap :=
  ⟨decodedEntries m.entries, by
    have h : (decodedEntries m.entries).keys = m.entries.keys := by
      simp [decodedEntries, List.keys, Function.comp_def]
    unfold List.NodupKeys
    rw [h]
    exact m.nodupKeys⟩

/-- The bag that `Scan` decodes from the cell that `Value()` wrote for this bag: its map is
not nil, it has the same keys, and each value is as `encoding/json` gives it back. -/
def SessionData.readBack (sd : SessionData) : SessionData :=
  ⟨some (sd.data.getD ∅).decoded⟩

/-- The row as a query delivers it: the bag is decoded from the cell by `Scan`. -/
def GormSession.scanned (row : GormSession) : GormSession :=
  { row with SessionData := row.SessionData.readBack }

/-! ## The storage handle (`*gorm.DB`) -/

/-- The rows of the table that the statements of the package can see, in table order. -/
abbrev Store := List GormSession

/-- What the surroundings decide during one call: the clock, and for each kind of statement
the error with which it is refused (`none`: it is executed). `Updates` and `Delete` are
refused by the storage engine or by GORM itself, which does not run them when the condition
built from the identifier is empty: the refusal depends on the identifier, and for the empty
identifier there always is one. -/
structure Env where
  now : GoTime
  beginErr : GoError
  findErr : GoError
  createErr : GoError
  updatesErr : String → GoError
  deleteErr : String → GoError
  commitErr : GoError
  updatesRefused : updatesErr "" ≠ none
  deleteRefused : deleteErr "" ≠ none

/-- The refusal of GORM for a statement without condition, `gorm.ErrMissingWhereClause`. -/
def missingWhereClause (sid : String) : GoError :=
  if sid = "" then some "WHERE conditions required" else none

/-- An environment in which the storage engine refuses nothing; what remains is the refusal
of GORM for the empty identifier. -/
def Env.healthy (now : GoTime) : Env :=
  { now := now, beginErr := none, findErr := none, createErr := none,
    updatesErr := missingWhereClause, deleteErr := missingWhereClause, commitErr := none,
    updatesRefused := by decide, deleteRefused := by decide }

/-- The outcome of a statement: the `Error` and `RowsAffected` fields of `*gorm.DB`. -/
structure Result where
  Error : GoError
  RowsAffected : Nat

/-- The key condition `session_key = sid`. -/
def whereSessionKey (sid : String) (row : GormSession) : Bool :=
  row.SessionKey == sid

/-- The condition GORM builds from `Where(GormSession{SessionKey: sid})`: a zero-valued field
of the struct is left out, so the empty identifier gives no condition and every row matches;
any other identifier gives the key condition. -/
def Gorm.condition (sid : String) (row : GormSession) : Bool :=
  sid == "" || whereSessionKey sid row

/-- `Where(GormSession{SessionKey: sid}).Limit(1).Find(s)`: the outcome and the destination
`s`, which starts as `&GormSession{}` and receives the first matching row, its bag decoded
from the cell by `Scan`. -/
def Gorm.Find (env : Env) (st : Store) (sid : String) : Result × GormSession :=
  match env.findErr with
  | some e => (⟨some e, 0⟩, ⟨"", ⟨none⟩, 0⟩)
  | none =>
    match st.find? (Gorm.condition sid) with
    | some row => (⟨none, 1⟩, row.scanned)
    | none => (⟨none, 0⟩, ⟨"", ⟨none⟩, 0⟩)

/-- `Create(&row)`: the row is appended to the table. -/
def Gorm.Create (env : Env) (st : Store) (row : GormSession) : Result × Store :=
  match env.createErr with
  | some e => (⟨some e, 0⟩, st)
  | none => (⟨none, 1⟩, st ++ [row])

/-- `Where(GormSession{SessionKey: sid}).Updates(GormSession{...})`: `assign` sets the
columns named by the non-zero fields of the argument, in every matching row (the package
passes a non-nil `SessionData` or a `time.Now().Add(..)`, neither of which is a zero
value). GORM refuses the statement for the empty identifier (see `Env`). A statement that
matches no row is no error. -/
def Gorm.Updates (env : Env) (st : Store) (sid : String) (assign : GormSession → GormSession) :
    Result × Store :=
  match env.updatesErr sid with
  | some e => (⟨some e, 0⟩, st)
  | none =>
    (⟨none, st.countP (Gorm.condition sid)⟩,
      st.map fun row => if Gorm.condition sid row then assign row else row)

/-- `Where(&GormSession{SessionKey: sid}).Delete(&GormSession{SessionKey: sid})`: every
matching row leaves the table. GORM refuses the statement for the empty identifier (see
`Env`). A statement that matches no row is no error. -/
def Gorm.Delete (env : Env) (st : Store) (sid : String) : Result × Store :=
  match env.deleteErr sid with
  | some e => (⟨some e, 0⟩, st)
  | none =>
    (⟨none, st.countP (Gorm.condition sid)⟩, st.filter fun row => !Gorm.condition sid row)

/-- `GormDB.Transaction(fc)`: `fc` runs on the table as it is when the transaction begins;
its writes are kept when it returns nil and the commit is accepted, and are rolled back
otherwise. The value of type `σ` stands for the variables `fc` captures and assigns. -/
def Gorm.Transaction {σ : Type} (env : Env) (st : Store) (vars : σ)
    (fc : Store → σ → GoError × σ × Store) : GoError × σ × Store :=
  match env.beginErr with
  | some e => (some e, vars, st)
  | none =>
    match fc st vars with
    | (some e, vars', _) => (some e, vars', st)
    | (none, vars', st') =>
      match env.commitErr with
      | some e => (some e, vars', st)
      | none => (none, vars', st')

/-! ## `database.go` -/

/-- The part of `sessions.DefaultTranscoder` that `decodeValue` calls: `Unmarshal(b, outPtr)`
returns an error and leaves a value behind `outPtr`. -/
structure Transcoder (Out : Type) where
  Unmarshal : Bytes → Out → GoError × Out

/-- `Database.getGormSessionBySid`: nil (`none`) when the query fails or returns no row. -/
def Database.getGormSessionBySid (env : Env) (st : Store) (sid : String) : Option GormSession :=
  let (sr, s) := Gorm.Find env st sid
  if sr.Error ≠ none ∨ sr.RowsAffected = 0 then none else some s

/-- The transaction of `Database.Acquire`: the error of `GormDB.Transaction`, the captured
variables `(isCreate, expireTime)` and the table afterwards. -/
def Database.acquireTx (env : Env) (st : Store) (sid : String) (expires : Duration) :
    GoError × (Bool × GoTime) × Store :=
  Gorm.Transaction env st (false, 0) fun tx vars =>
    match Database.getGormSessionBySid env tx sid with
    | some s => (none, (vars.1, s.Expires), tx)
    | none =>
      let (cr, tx') := Gorm.Create env tx ⟨sid, ⟨none⟩, env.now + expires⟩
      if cr.Error ≠ none then (cr.Error, vars, tx') else (none, (true, vars.2), tx')

/-- `Database.Acquire`: the returned `LifeTime` and the table afterwards. -/
def Database.Acquire (env : Env) (st : Store) (sid : String) (expires : Duration) :
    LifeTime × Store :=
  let (err, (isCreate, expireTime), st') := Database.acquireTx env st sid expires
  if err ≠ none then (LifeTime.empty, st')
  else if isCreate then (LifeTime.empty, st')
  else (⟨expireTime⟩, st')

/-- `Database.OnUpdateExpiration`: the returned error and the table afterwards. -/
def Database.OnUpdateExpiration (env : Env) (st : Store) (sid : String) (newExpires : Duration) :
    GoError × Store :=
  let (ur, st') := Gorm.Updates env st sid fun row => { row with Expires := env.now + newExpires }
  if ur.Error ≠ none then (some "update expiration failed", st') else (none, st')

/-- `Database.Set`: the returned error and the table afterwards. -/
def Database.Set (env : Env) (st : Store) (sid : String) (key : String) (value : GoValue) :
    GoError × Store :=
  let (err, _, st') := Gorm.Transaction env st () fun tx vars =>
    match Database.getGormSessionBySid env tx sid with
    | none => (some "session not exist", vars, tx)
    | some s =>
      let data := s.SessionData.Set key value
      let (ur, tx') := Gorm.Updates env tx sid fun row => { row with SessionData := data }
      if ur.Error ≠ none then (some "set session failed", vars, tx') else (none, vars, tx')
  (err, st')

/-- `Database.Get`: the value, `GoValue.nil` when the session or the key is missing. -/
def Database.Get (env : Env) (st : Store) (sid : String) (key : String) : GoValue :=
  match Database.getGormSessionBySid env st sid with
  | none => .nil
  | some s =>
    let (data, err) := s.SessionData.Get key
    if err ≠ none then .nil else data

/-- `Database.decodeValue`: the error and the value behind `outPtr` afterwards. -/
def Database.decodeValue {Out : Type} (T : Transcoder Out) (val : GoValue) (outPtr : Out) :
    GoError × Out :=
  match val with
  | .nil => (none, outPtr)
  | .bytes data => T.Unmarshal data outPtr
  | .string data => T.Unmarshal data.toUTF8.data.toList outPtr
  | data => (some ("unknown value type of " ++ data.typeName), outPtr)

/-- `Database.Decode`. -/
def Database.Decode {Out : Type} (T : Transcoder Out) (env : Env) (st : Store) (sid key : String)
    (outPtr : Out) : GoError × Out :=
  match Database.getGormSessionBySid env st sid with
  | none => (some "session not exist", outPtr)
  | some s =>
    let (data, err) := s.SessionData.Get key
    if err ≠ none then (err, outPtr) else Database.decodeValue T data outPtr

/-- `Database.Visit`: the error and the calls of the callback. -/
def Database.Visit (env : Env) (st : Store) (sid : String) : GoError × List (String × GoValue) :=
  match Database.getGormSessionBySid env st sid with
  | none => (some "session not exist", [])
  | some s => (none, s.SessionData.Visit)

/-- `Database.Len`. -/
def Database.Len (env : Env) (st : Store) (sid : String) : Nat :=
  match Database.getGormSessionBySid env st sid with
  | none => 0
  | some s => s.SessionData.Len

/-- `Database.Delete`: the returned flag and the table afterwards. -/
def Database.Delete (env : Env) (st : Store) (sid : String) (key : String) : Bool × Store :=
  match Database.getGormSessionBySid env st sid with
  | none => (false, st)
  | some s =>
    let data := s.SessionData.Delete key
    let (dr, st') := Gorm.Updates env st sid fun row => { row with SessionData := data }
    (dr.Error == none, st')

/-- `Database.Clear`: the returned error and the table afterwards. -/
def Database.Clear (env : Env) (st : Store) (sid : String) : GoError × Store :=
  match Database.getGormSessionBySid env st sid with
  | none => (some "session not exist", st)
  | some s =>
    let data := s.SessionData.Clear
    let (ur, st') := Gorm.Updates env st sid fun row => { row with SessionData := data }
    (ur.Error, st')

/-- `Database.Release`: the returned error and the table afterwards. -/
def Database.Release (env : Env) (st : Store) (sid : String) : GoError × Store :=
  let (dr, st') := Gorm.Delete env st sid
  (dr.Error, st')

/-! ## Lookups -/

/-- For a non-empty identifier the condition GORM builds is the key condition. -/
theorem condition_eq (sid : String) (h : sid ≠ "") :
    Gorm.condition sid = whereSessionKey sid := by
  funext row
  simp [Gorm.condition, h]

/-- An accepted `Updates` has a non-empty identifier. -/
theorem sid_ne_of_updates (env : Env) (sid : String) (h : env.updatesErr sid = none) :
    sid ≠ "" := by
  intro hs
  subst hs
  exact env.updatesRefused h

/-- An accepted `Delete` has a non-empty identifier. -/
theorem sid_ne_of_delete (env : Env) (sid : String) (h : env.deleteErr sid = none) :
    sid ≠ "" := by
  intro hs
  subst hs
  exact env.deleteRefused h

/-- The lookup returns the first row that meets the condition, decoded, unless the query is
refused. -/
theorem getGormSessionBySid_eq (env : Env) (st : Store) (sid : String) :
    Database.getGormSessionBySid env st sid =
      if env.findErr = none then (st.find? (Gorm.condition sid)).map GormSession.scanned
      else none := by
  unfold Database.getGormSessionBySid Gorm.Find
  cases h : env.findErr with
  | some e => simp
  | none =>
    cases h2 : st.find? (Gorm.condition sid) with
    | none => simp
    | some row => simp

/-- The lookup of a non-empty identifier that is answered: the first row with the key. -/
theorem lookup_of_key (env : Env) (st : Store) (sid : String) (h : sid ≠ "")
    (hfind : env.findErr = none) :
    Database.getGormSessionBySid env st sid =
      (st.find? (whereSessionKey sid)).map GormSession.scanned := by
  rw [getGormSessionBySid_eq, if_pos hfind, condition_eq sid h]

/-- After an update of the rows of `sid` that keeps their key, the first row of `sid` is the
updated first row. -/
theorem firstRow_updated (st : Store) (sid : String) (assign : GormSession → GormSession)
    (hkey : ∀ row, (assign row).SessionKey = row.SessionKey) :
    (st.map fun row => if whereSessionKey sid row then assign row else row).find?
        (whereSessionKey sid) = (st.find? (whereSessionKey sid)).map assign := by
  induction st with
  | nil => rfl
  | cons r rs ih =>
    by_cases h : whereSessionKey sid r = true
    · have h2 : whereSessionKey sid (assign r) = true := by
        simpa [whereSessionKey, hkey] using h
      simp [List.find?, h, h2]
    · simp only [Bool.not_eq_true] at h
      simp [List.find?, h, ih]

/-- An update of the rows of `sid` does not change the first row of another identifier. -/
theorem firstRow_updated_other (st : Store) (sid other : String)
    (assign : GormSession → GormSession)
    (hkey : ∀ row, (assign row).SessionKey = row.SessionKey) (hne : other ≠ sid) :
    (st.map fun row => if whereSessionKey sid row then assign row else row).find?
        (whereSessionKey other) = st.find? (whereSessionKey other) := by
  induction st with
  | nil => rfl
  | cons r rs ih =>
    by_cases h : whereSessionKey sid r = true
    · have h1 : whereSessionKey other r = false := by
        simp [whereSessionKey] at h ⊢
        rw [h]; exact fun e => hne e.symm
      have h2 : whereSessionKey other (assign r) = false := by
        simpa [whereSessionKey, hkey] using h1
      simp [List.find?, h, h1, h2, ih]
    · simp only [Bool.not_eq_true] at h
      by_cases h1 : whereSessionKey other r = true
      · simp [List.find?, h, h1]
      · simp only [Bool.not_eq_true] at h1
        simp [List.find?, h, h1, ih]

/-- No row with the key: the search finds nothing. -/
theorem firstRow_none_of_absent (st : Store) (sid : String)
    (h : ∀ row ∈ st, row.SessionKey ≠ sid) : st.find? (whereSessionKey sid) = none := by
  rw [List.find?_eq_none]
  intro row hrow
  simpa [whereSessionKey] using h row hrow

/-- The lookup of a non-empty identifier without a row returns nothing. -/
theorem lookup_none_of_absent (env : Env) (st : Store) (sid : String) (h : sid ≠ "")
    (habs : ∀ row ∈ st, row.SessionKey ≠ sid) :
    Database.getGormSessionBySid env st sid = none := by
  rw [getGormSessionBySid_eq, condition_eq sid h, firstRow_none_of_absent st sid habs]
  simp

/-- A refused query is taken for an absent session. -/
theorem lookup_none_of_refused (env : Env) (st : Store) (sid : String)
    (h : env.findErr ≠ none) : Database.getGormSessionBySid env st sid = none := by
  rw [getGormSessionBySid_eq, if_neg h]

/-- The first row of `sid` after a row of `sid` is appended to a table without one. -/
theorem firstRow_append_new (st : Store) (sid : String) (row : GormSession)
    (habs : ∀ r ∈ st, r.SessionKey ≠ sid) (hkey : row.SessionKey = sid) :
    (st ++ [row]).find? (whereSessionKey sid) = some row := by
  rw [List.find?_append, firstRow_none_of_absent st sid habs]
  simp [List.find?, whereSessionKey, hkey]

/-- A table from which the rows of `sid` are removed has no first row of `sid`. -/
theorem firstRow_removed (st : Store) (sid : String) :
    (st.filter fun row => !whereSessionKey sid row).find? (whereSessionKey sid) = none := by
  rw [List.find?_eq_none]
  intro row hrow
  have := (List.mem_filter.mp hrow).2
  simpa using this

/-- An update of the rows of `sid` leaves a table without such rows as it is. -/
theorem updated_of_absent (st : Store) (sid : String) (assign : GormSession → GormSession)
    (habs : ∀ row ∈ st, row.SessionKey ≠ sid) :
    (st.map fun row => if whereSessionKey sid row then assign row else row) = st := by
  conv_rhs => rw [← List.map_id st]
  apply List.map_congr_left
  intro row hrow
  have : whereSessionKey sid row = false := by simpa [whereSessionKey] using habs row hrow
  simp [this]

/-- The key and the expiry of every row are as before when only the bags are assigned. -/
theorem keys_expires_updated (st : Store) (sid : String) (data : SessionData) :
    (st.map fun row =>
        if whereSessionKey sid row then { row with SessionData := data } else row).map
      (fun row => (row.SessionKey, row.Expires)) =
    st.map fun row => (row.SessionKey, row.Expires) := by
  rw [List.map_map]
  apply List.map_congr_left
  intro row _
  by_cases h : whereSessionKey sid row = true <;> simp [h]

/-! ## The bag -/
/-- Number of entries of a map after `delete(m, k)`. -/
theorem length_erase (m : GoMap) (k : String) :
    (m.erase k).entries.length =
      if k ∈ m then m.entries.length - 1 else m.entries.length := by
  have h1 : (m.erase k).entries.length = (m.erase k).keys.length := by
    simp [AList.keys, List.keys]
  have h2 : m.entries.length = m.keys.length := by
    simp [AList.keys, List.keys]
  rw [h1, h2, AList.keys_erase]
  by_cases h : k ∈ m
  · rw [if_pos h, List.length_erase_of_mem (AList.mem_keys.mp h)]
  · rw [if_neg h, List.erase_of_not_mem (fun hk => h (AList.mem_keys.mpr hk))]

/-- Number of entries of a map after `m[k] = v`. -/
theorem length_insert (m : GoMap) (k : String) (v : GoValue) :
    (m.insert k v).entries.length =
      if k ∈ m then m.entries.length else m.entries.length + 1 := by
  have h := length_erase m k
  rw [AList.insert_entries, List.length_cons]
  have h3 : (List.kerase k m.entries).length = (m.erase k).entries.length := rfl
  rw [h3, h]
  by_cases hk : k ∈ m
  · have hpos : 0 < m.entries.length := by
      have : k ∈ m.keys := AList.mem_keys.mp hk
      have h2 : m.entries.length = m.keys.length := by simp [AList.keys, List.keys]
      rw [h2]; exact List.length_pos_of_mem this
    simp [hk]; omega
  · simp [hk]

/-- The key is among the entries of the bag: `SessionData.Get` returns no error. -/
theorem Get_err_eq_none_iff (sd : SessionData) (k : String) :
    (sd.Get k).2 = none ↔ ∃ m, sd.data = some m ∧ k ∈ m := by
  unfold SessionData.Get
  cases hd : sd.data with
  | none => simp
  | some m =>
    cases hl : AList.lookup k m with
    | none =>
      have : k ∉ m := AList.lookup_eq_none.mp hl
      simp [hl, this]
    | some v =>
      have : k ∈ m := AList.lookup_isSome.mp (by simp [hl])
      simp [hl, this]

theorem Set_Get_same (sd : SessionData) (k : String) (v : GoValue) :
    (sd.Set k v).Get k = (v, none) := by
  simp [SessionData.Set, SessionData.Get, AList.lookup_insert]

theorem Set_Get_other (sd : SessionData) (k k' : String) (v : GoValue) (h : k' ≠ k) :
    (sd.Set k v).Get k' = sd.Get k' := by
  cases hd : sd.data with
  | none =>
    simp only [SessionData.Set, SessionData.Get, hd, Option.getD_none, Option.some_bind,
      Option.none_bind, AList.lookup_insert_ne h, AList.lookup_empty]
  | some m =>
    simp only [SessionData.Set, SessionData.Get, hd, Option.getD_some, Option.some_bind,
      AList.lookup_insert_ne h]

theorem Set_Len (sd : SessionData) (k : String) (v : GoValue) :
    (sd.Set k v).Len = if (sd.Get k).2 = none then sd.Len else sd.Len + 1 := by
  cases hd : sd.data with
  | none =>
    have : ¬ (sd.Get k).2 = none := by
      rw [Get_err_eq_none_iff]; simp [hd]
    rw [if_neg this]
    simp [SessionData.Set, SessionData.Len, hd, length_insert]
  | some m =>
    by_cases hk : k ∈ m
    · have : (sd.Get k).2 = none := (Get_err_eq_none_iff sd k).mpr ⟨m, hd, hk⟩
      rw [if_pos this]
      simp only [SessionData.Set, SessionData.Len, hd, Option.getD_some]
      rw [length_insert, if_pos hk]
    · have : ¬ (sd.Get k).2 = none := by
        rw [Get_err_eq_none_iff]; simp [hd, hk]
      rw [if_neg this]
      simp only [SessionData.Set, SessionData.Len, hd, Option.getD_some]
      rw [length_insert, if_neg hk]

theorem Delete_Get_same (sd : SessionData) (k : String) :
    (sd.Delete k).Get k = (.string "", some ("key " ++ k ++ " not exist")) := by
  cases hd : sd.data with
  | none => simp [SessionData.Delete, SessionData.Get, hd]
  | some m => simp [SessionData.Delete, SessionData.Get, hd, AList.lookup_erase]

theorem Delete_Get_other (sd : SessionData) (k k' : String) (h : k' ≠ k) :
    (sd.Delete k).Get k' = sd.Get k' := by
  cases hd : sd.data with
  | none => simp [SessionData.Delete, SessionData.Get, hd]
  | some m => simp [SessionData.Delete, SessionData.Get, hd, AList.lookup_erase_ne h]

theorem Delete_Len (sd : SessionData) (k : String) :
    (sd.Delete k).Len = if (sd.Get k).2 = none then sd.Len - 1 else sd.Len := by
  cases hd : sd.data with
  | none =>
    have : ¬ (sd.Get k).2 = none := by
      rw [Get_err_eq_none_iff]; simp [hd]
    rw [if_neg this]
    simp [SessionData.Delete, SessionData.Len, hd]
  | some m =>
    by_cases hk : k ∈ m
    · have : (sd.Get k).2 = none := (Get_err_eq_none_iff sd k).mpr ⟨m, hd, hk⟩
      rw [if_pos this]
      simp only [SessionData.Delete, SessionData.Len, hd, Option.map_some']
      rw [length_erase, if_pos hk]
    · have : ¬ (sd.Get k).2 = none := by
        rw [Get_err_eq_none_iff]; simp [hd, hk]
      rw [if_neg this]
      simp only [SessionData.Delete, SessionData.Len, hd, Option.map_some']
      rw [length_erase, if_neg hk]

/-- The stored cell of a bag without entries is the empty object. -/
theorem Value_of_Len_zero (codec : JSONCodec) (sd : SessionData) (h : sd.Len = 0) :
    sd.Value codec = .ok emptyObjectBytes := by
  unfold SessionData.Value
  rw [if_pos h]

/-- A value that came back from the JSON cell comes back unchanged a second time. -/
theorem jsonDecoded_idem (v : GoValue) : v.jsonDecoded.jsonDecoded = v.jsonDecoded := by
  cases v <;> rfl

/-- Looking a key up in the decoded entries gives the decoded value. -/
theorem dlookup_decodedEntries (k : String) (l : List (Sigma fun _ : String => GoValue)) :
    List.dlookup k (decodedEntries l) = (List.dlookup k l).map GoValue.jsonDecoded := by
  induction l with
  | nil => rfl
  | cons e l ih =>
    obtain ⟨a, b⟩ := e
    have hcons : decodedEntries (⟨a, b⟩ :: l) = ⟨a, b.jsonDecoded⟩ :: decodedEntries l := rfl
    rw [hcons]
    by_cases h : a = k
    · subst h
      simp only [List.dlookup, dif_pos rfl]
      rfl
    · simp only [List.dlookup, dif_neg h]
      exact ih

/-- Looking a key up in the decoded map gives the decoded value. -/
theorem lookup_decoded (k : String) (m : GoMap) :
    AList.lookup k m.decoded = (AList.lookup k m).map GoValue.jsonDecoded :=
  dlookup_decodedEntries k m.entries

/-- The decoded map has as many entries as the map. -/
theorem length_decoded (m : GoMap) : m.decoded.entries.length = m.entries.length := by
  simp [GoMap.decoded, decodedEntries]

/-- What `SessionData.Get` returns on the bag that is read back. -/
theorem readBack_Get (sd : SessionData) (k : String) :
    sd.readBack.Get k = ((sd.Get k).1.jsonDecoded, (sd.Get k).2) := by
  unfold SessionData.readBack SessionData.Get
  cases hd : sd.data with
  | none =>
    simp only [Option.getD_none, Option.some_bind, Option.none_bind, lookup_decoded,
      AList.lookup_empty, Option.map_none']
    rfl
  | some m =>
    simp only [Option.getD_some, Option.some_bind, lookup_decoded]
    cases hl : AList.lookup k m with
    | none => rfl
    | some v => rfl

/-- The bag that is read back has as many entries as the bag that was written. -/
theorem readBack_Len (sd : SessionData) : sd.readBack.Len = sd.Len := by
  unfold SessionData.readBack SessionData.Len
  cases hd : sd.data with
  | none => simp [length_decoded]
  | some m => simp [length_decoded]

/-- Reading back a bag that was read back changes nothing. -/
theorem readBack_Get_idem (sd : SessionData) (k : String) :
    sd.readBack.readBack.Get k = sd.readBack.Get k := by
  rw [readBack_Get, readBack_Get]
  simp [jsonDecoded_idem]

/-! ## Acquire -/

/-- The transaction of `Acquire`, by cases on what the surroundings do. -/
theorem acquireTx_eq (env : Env) (st : Store) (sid : String) (expires : Duration) :
    Database.acquireTx env st sid expires =
      match env.beginErr with
      | some e => (some e, (false, 0), st)
      | none =>
        match Database.getGormSessionBySid env st sid with
        | some s =>
          (match env.commitErr with
          | some e => (some e, (false, s.Expires), st)
          | none => (none, (false, s.Expires), st))
        | none =>
          match env.createErr with
          | some e => (some e, (false, 0), st)
          | none =>
            match env.commitErr with
            | some e => (some e, (true, 0), st)
            | none => (none, (true, 0), st ++ [⟨sid, ⟨none⟩, env.now + expires⟩]) := by
  unfold Database.acquireTx Gorm.Transaction Gorm.Create
  cases hb : env.beginErr <;> cases hg : Database.getGormSessionBySid env st sid <;>
    cases hc : env.createErr <;> cases hm : env.commitErr <;> simp [hg]

/-- `Acquire` when the lookup returns the row `s` and the transaction succeeds. -/
theorem Acquire_of_lookup (env : Env) (st : Store) (sid : String) (expires : Duration)
    (s : GormSession) (hs : Database.getGormSessionBySid env st sid = some s)
    (htx : (Database.acquireTx env st sid expires).1 = none) :
    Database.Acquire env st sid expires = (⟨s.Expires⟩, st) := by
  revert htx
  unfold Database.Acquire
  rw [acquireTx_eq, hs]
  cases hb : env.beginErr <;> cases hm : env.commitErr <;> simp

/-- `Acquire` when the lookup returns no row and the transaction succeeds. -/
theorem Acquire_of_no_lookup (env : Env) (st : Store) (sid : String) (expires : Duration)
    (hs : Database.getGormSessionBySid env st sid = none)
    (htx : (Database.acquireTx env st sid expires).1 = none) :
    Database.Acquire env st sid expires =
      (LifeTime.empty, st ++ [⟨sid, ⟨none⟩, env.now + expires⟩]) := by
  revert htx
  unfold Database.Acquire
  rw [acquireTx_eq, hs]
  cases hb : env.beginErr <;> cases hc : env.createErr <;> cases hm : env.commitErr <;> simp

/-- `Acquire` on a session with a non-empty identifier whose first row is `s`, when the
lookup is answered and the transaction succeeds. -/
theorem Acquire_found (env : Env) (st : Store) (sid : String) (expires : Duration)
    (s : GormSession) (hsid : sid ≠ "") (hfind : env.findErr = none)
    (hrow : st.find? (whereSessionKey sid) = some s)
    (htx : (Database.acquireTx env st sid expires).1 = none) :
    Database.Acquire env st sid expires = (⟨s.Expires⟩, st) := by
  have hs : Database.getGormSessionBySid env st sid = some s.scanned := by
    rw [lookup_of_key env st sid hsid hfind, hrow]; rfl
  exact Acquire_of_lookup env st sid expires s.scanned hs htx

/-- `Acquire` of a non-empty identifier on a table without a row for it, when the
transaction succeeds. -/
theorem Acquire_created (env : Env) (st : Store) (sid : String) (expires : Duration)
    (hsid : sid ≠ "") (habs : ∀ row ∈ st, row.SessionKey ≠ sid)
    (htx : (Database.acquireTx env st sid expires).1 = none) :
    Database.Acquire env st sid expires =
      (LifeTime.empty, st ++ [⟨sid, ⟨none⟩, env.now + expires⟩]) :=
  Acquire_of_no_lookup env st sid expires (lookup_none_of_absent env st sid hsid habs) htx

/-- `Acquire` when the transaction returns an error. -/
theorem Acquire_failed (env : Env) (st : Store) (sid : String) (expires : Duration)
    (htx : (Database.acquireTx env st sid expires).1 ≠ none) :
    Database.Acquire env st sid expires = (LifeTime.empty, st) := by
  revert htx
  unfold Database.Acquire
  rw [acquireTx_eq]
  cases hb : env.beginErr <;> cases hg : Database.getGormSessionBySid env st sid <;>
    cases hc : env.createErr <;> cases hm : env.commitErr <;> simp

/-- The transaction of `Acquire` succeeds exactly when begin and commit are accepted and
either the lookup returns a row or the insert is accepted. -/
theorem acquireTx_ok_iff (env : Env) (st : Store) (sid : String) (expires : Duration) :
    (Database.acquireTx env st sid expires).1 = none ↔
      env.beginErr = none ∧ env.commitErr = none ∧
        (Database.getGormSessionBySid env st sid ≠ none ∨ env.createErr = none) := by
  rw [acquireTx_eq]
  cases hb : env.beginErr <;> cases hg : Database.getGormSessionBySid env st sid <;>
    cases hc : env.createErr <;> cases hm : env.commitErr <;> simp

/-- C1, as the code has it: `Acquire(sid, expires)` over a table at time `env.now`, for a
non-empty `sid`. When the table has a row for `sid` (the first such row is `s`), the lookup
is answered and the transaction succeeds, the result is the `LifeTime` with the stored
`s.Expires` and the table is unchanged. When the lookup returns no row, because the table
has no row for `sid` or because the query fails (a failed query is taken for an absent
session), and the transaction succeeds, the table is the old one followed by exactly one new
row, with `SessionKey = sid`, the empty bag and `Expires = now + expires`, and the result is
the empty `LifeTime`, not the computed expiry. When the transaction returns an error, the
result is the empty `LifeTime` and the table is unchanged. The transaction succeeds exactly
when begin and commit are accepted and either the lookup returns a row or the insert is
accepted. -/
theorem Acquire_contract (env : Env) (st : Store) (sid : String) (expires : Duration)
    (hsid : sid ≠ "") :
    (∀ s, env.findErr = none → st.find? (whereSessionKey sid) = some s →
        (Database.acquireTx env st sid expires).1 = none →
        Database.Acquire env st sid expires = (⟨s.Expires⟩, st)) ∧
    ((∀ row ∈ st, row.SessionKey ≠ sid) ∨ env.findErr ≠ none →
        (Database.acquireTx env st sid expires).1 = none →
        Database.Acquire env st sid expires =
          (LifeTime.empty, st ++ [⟨sid, ⟨none⟩, env.now + expires⟩])) ∧
    ((Database.acquireTx env st sid expires).1 ≠ none →
        Database.Acquire env st sid expires = (LifeTime.empty, st)) ∧
    ((Database.acquireTx env st sid expires).1 = none ↔
        env.beginErr = none ∧ env.commitErr = none ∧
          (Database.getGormSessionBySid env st sid ≠ none ∨ env.createErr = none)) := by
  refine ⟨fun s hfind hrow htx => Acquire_found env st sid expires s hsid hfind hrow htx,
    ?_, Acquire_failed env st sid expires, acquireTx_ok_iff env st sid expires⟩
  intro h htx
  apply Acquire_of_no_lookup env st sid expires _ htx
  rcases h with habs | hrefused
  · exact lookup_none_of_absent env st sid hsid habs
  · exact lookup_none_of_refused env st sid hrefused

/-- C1, at concrete tables: an existing session, a new one, and a refused insert. -/
theorem Acquire_contract_witness :
    Database.Acquire (Env.healthy 5) [⟨"s", ⟨none⟩, 100⟩] "s" 10 =
        (⟨100⟩, [⟨"s", ⟨none⟩, 100⟩]) ∧
    Database.Acquire (Env.healthy 5) [⟨"t", ⟨none⟩, 100⟩] "s" 10 =
        (LifeTime.empty, [⟨"t", ⟨none⟩, 100⟩, ⟨"s", ⟨none⟩, 15⟩]) ∧
    Database.Acquire { Env.healthy 5 with createErr := some "Duplicate entry" }
        [⟨"t", ⟨none⟩, 100⟩] "s" 10 = (LifeTime.empty, [⟨"t", ⟨none⟩, 100⟩]) :=
  ⟨(Acquire_contract (Env.healthy 5) [⟨"s", ⟨none⟩, 100⟩] "s" 10 (by decide)).1
      ⟨"s", ⟨none⟩, 100⟩ (by decide) (by rfl) (by decide),
    (Acquire_contract (Env.healthy 5) [⟨"t", ⟨none⟩, 100⟩] "s" 10 (by decide)).2.1
      (Or.inl (by decide)) (by decide),
    (Acquire_contract { Env.healthy 5 with createErr := some "Duplicate entry" }
      [⟨"t", ⟨none⟩, 100⟩] "s" 10 (by decide)).2.2.1 (by decide)⟩

/-- C1 fails as stated, twice. The table has a row for `s` with expiry 100, the query of the
lookup fails, the insert and the transaction succeed: `Acquire("s", 10)` returns the empty
`LifeTime`, not the stored expiry, and the table has a second row for `s`. And for the empty
identifier the lookup has no key condition: the table has no row for it, the transaction
succeeds, and `Acquire("", 10)` returns the expiry of the row of `t` and inserts nothing. -/
theorem Acquire_row_exists_yet_inserts :
    (∃ row ∈ ([⟨"s", ⟨none⟩, 100⟩] : Store), row.SessionKey = "s") ∧
    (Database.acquireTx { Env.healthy 5 with findErr := some "invalid connection" }
      [⟨"s", ⟨none⟩, 100⟩] "s" 10).1 = none ∧
    Database.Acquire { Env.healthy 5 with findErr := some "invalid connection" }
      [⟨"s", ⟨none⟩, 100⟩] "s" 10 =
        (LifeTime.empty, [⟨"s", ⟨none⟩, 100⟩, ⟨"s", ⟨none⟩, 15⟩]) ∧
    (∀ row ∈ ([⟨"t", ⟨none⟩, 100⟩] : Store), row.SessionKey ≠ "") ∧
    (Database.acquireTx (Env.healthy 5) [⟨"t", ⟨none⟩, 100⟩] "" 10).1 = none ∧
    Database.Acquire (Env.healthy 5) [⟨"t", ⟨none⟩, 100⟩] "" 10 =
      (⟨100⟩, [⟨"t", ⟨none⟩, 100⟩]) :=
  ⟨⟨⟨"s", ⟨none⟩, 100⟩, by simp, rfl⟩, by decide, by rfl, by decide, by decide, by rfl⟩

/-! ## Set, Get, Len -/

/-- `Set` by cases on what the surroundings do. -/
theorem Set_eq (env : Env) (st : Store) (sid key : String) (value : GoValue) :
    Database.Set env st sid key value =
      match env.beginErr with
      | some e => (some e, st)
      | none =>
        match Database.getGormSessionBySid env st sid with
        | none => (some "session not exist", st)
        | some s =>
          match env.updatesErr sid with
          | some _ => (some "set session failed", st)
          | none =>
            match env.commitErr with
            | some e => (some e, st)
            | none =>
              (none, st.map fun row =>
                if Gorm.condition sid row then
                  { row with SessionData := s.SessionData.Set key value }
                else row) := by
  unfold Database.Set Gorm.Transaction Gorm.Updates
  cases hb : env.beginErr <;> cases hg : Database.getGormSessionBySid env st sid <;>
    cases hu : env.updatesErr sid <;> cases hm : env.commitErr <;> simp [hg]

/-- A successful `Set` has a non-empty identifier, found the first row of `sid` and replaced
the bag of the rows of `sid` by the bag read from that row with the key set. -/
theorem Set_success (env : Env) (st : Store) (sid key : String) (value : GoValue)
    (h : (Database.Set env st sid key value).1 = none) :
    sid ≠ "" ∧ ∃ s, st.find? (whereSessionKey sid) = some s ∧
      (Database.Set env st sid key value).2 = st.map fun row =>
        if whereSessionKey sid row then
          { row with SessionData := s.SessionData.readBack.Set key value }
        else row := by
  have hu : env.updatesErr sid = none := by
    revert h
    rw [Set_eq]
    cases hb : env.beginErr <;> cases hg : Database.getGormSessionBySid env st sid <;>
      cases hu : env.updatesErr sid <;> cases hm : env.commitErr <;> simp
  have hsid := sid_ne_of_updates env sid hu
  refine ⟨hsid, ?_⟩
  rw [Set_eq] at h ⊢
  rw [getGormSessionBySid_eq, condition_eq sid hsid] at h ⊢
  cases hb : env.beginErr <;> cases hf : env.findErr <;>
    cases hg : st.find? (whereSessionKey sid) <;>
    cases hm : env.commitErr <;> simp_all [GormSession.scanned]

/-- `Get` of a non-empty identifier by a reader whose lookup is answered. -/
theorem Get_eq (env : Env) (st : Store) (sid key : String) (hsid : sid ≠ "")
    (h : env.findErr = none) :
    Database.Get env st sid key =
      match st.find? (whereSessionKey sid) with
      | none => .nil
      | some s =>
        if (s.SessionData.Get key).2 ≠ none then .nil
        else (s.SessionData.Get key).1.jsonDecoded := by
  unfold Database.Get
  rw [lookup_of_key env st sid hsid h]
  cases hg : st.find? (whereSessionKey sid) with
  | none => rfl
  | some s =>
    simp only [Option.map_some', GormSession.scanned, readBack_Get]

/-- `Len` of a non-empty identifier by a reader whose lookup is answered. -/
theorem Len_eq (env : Env) (st : Store) (sid : String) (hsid : sid ≠ "")
    (h : env.findErr = none) :
    Database.Len env st sid =
      match st.find? (whereSessionKey sid) with
      | none => 0
      | some s => s.SessionData.Len := by
  unfold Database.Len
  rw [lookup_of_key env st sid hsid h]
  cases hg : st.find? (whereSessionKey sid) with
  | none => rfl
  | some s =>
    simp only [Option.map_some', GormSession.scanned, readBack_Len]

/-- What a reader sees after a successful `Set` on a session whose first row is `s`. -/
theorem Set_observed (env reader : Env) (st : Store) (sid key : String) (value : GoValue)
    (s : GormSession) (hrow : st.find? (whereSessionKey sid) = some s)
    (hset : (Database.Set env st sid key value).1 = none) (hread : reader.findErr = none) :
    Database.Get reader (Database.Set env st sid key value).2 sid key = value.jsonDecoded ∧
    (∀ k, k ≠ key →
      Database.Get reader (Database.Set env st sid key value).2 sid k =
        Database.Get reader st sid k) ∧
    Database.Len reader (Database.Set env st sid key value).2 sid =
      (if (s.SessionData.Get key).2 = none then Database.Len reader st sid
       else Database.Len reader st sid + 1) ∧
    (Database.Set env st sid key value).2.find? (whereSessionKey sid) =
      some { s with SessionData := s.SessionData.readBack.Set key value } := by
  obtain ⟨hsid, s', hs', hst⟩ := Set_success env st sid key value hset
  have hss : s' = s := by rw [hrow] at hs'; exact (Option.some.inj hs').symm
  subst hss
  have hfirst : (Database.Set env st sid key value).2.find? (whereSessionKey sid) =
      some { s' with SessionData := s'.SessionData.readBack.Set key value } := by
    rw [hst, firstRow_updated st sid
      (fun row => { row with SessionData := s'.SessionData.readBack.Set key value })
      (fun _ => rfl), hrow]
    rfl
  refine ⟨?_, ?_, ?_, hfirst⟩
  · rw [Get_eq _ _ _ _ hsid hread, hfirst]
    simp [Set_Get_same]
  · intro k hk
    rw [Get_eq _ _ _ _ hsid hread, Get_eq _ _ _ _ hsid hread, hfirst, hrow]
    simp [Set_Get_other _ _ _ _ hk, readBack_Get, jsonDecoded_idem]
  · rw [Len_eq _ _ _ hsid hread, Len_eq _ _ _ hsid hread, hfirst, hrow]
    simp [Set_Len, readBack_Get, readBack_Len]

/-- C2, as the code has it: after `Set(sid, key, value)` succeeds on a session that has a
row (`s` is its first row), a reader whose lookup is answered gets from `Get(sid, key)` the
value as `encoding/json` gives it back from the stored cell: `value` itself when it is nil,
a boolean or a string, but a `float64` for a number and the base64 string for a `[]byte`.
Every other key of the bag reads as before; `Len(sid)` is unchanged when the key was in the
bag and one more when it was not. A second successful `Set` of `key2` then reads back the
decoded `value2`, and the first decoded value is still read when the keys differ (same key:
the later value is read). On a session that `Acquire` has just created, `Set(sid, "a", 1)`
is followed by `Get(sid, "a") = float64(1)` and `Len(sid) = 1`. -/
theorem Set_contract :
    (∀ (env reader : Env) (st : Store) (sid key : String) (value : GoValue) (s : GormSession),
      st.find? (whereSessionKey sid) = some s →
      (Database.Set env st sid key value).1 = none →
      reader.findErr = none →
      Database.Get reader (Database.Set env st sid key value).2 sid key = value.jsonDecoded ∧
      (∀ k, k ≠ key →
        Database.Get reader (Database.Set env st sid key value).2 sid k =
          Database.Get reader st sid k) ∧
      Database.Len reader (Database.Set env st sid key value).2 sid =
        (if (s.SessionData.Get key).2 = none then Database.Len reader st sid
         else Database.Len reader st sid + 1) ∧
      (∀ (env2 : Env) (key2 : String) (value2 : GoValue),
        (Database.Set env2 (Database.Set env st sid key value).2 sid key2 value2).1 = none →
        Database.Get reader
            (Database.Set env2 (Database.Set env st sid key value).2 sid key2 value2).2
            sid key2 = value2.jsonDecoded ∧
        (key ≠ key2 →
          Database.Get reader
            (Database.Set env2 (Database.Set env st sid key value).2 sid key2 value2).2
            sid key = value.jsonDecoded))) ∧
    (GoValue.nil.jsonDecoded = .nil ∧
      (∀ b, (GoValue.bool b).jsonDecoded = .bool b) ∧
      (∀ t, (GoValue.string t).jsonDecoded = .string t) ∧
      (∀ n, (GoValue.int n).jsonDecoded = .other "float64" (toString n)) ∧
      (∀ data, (GoValue.bytes data).jsonDecoded = .string (String.mk (base64 data)))) ∧
    (∀ (creator env reader : Env) (st : Store) (sid : String) (expires : Duration),
      (∀ row ∈ st, row.SessionKey ≠ sid) →
      (Database.acquireTx creator st sid expires).1 = none →
      (Database.Set env (Database.Acquire creator st sid expires).2 sid "a" (.int 1)).1 = none →
      reader.findErr = none →
      Database.Get reader
          (Database.Set env (Database.Acquire creator st sid expires).2 sid "a" (.int 1)).2
          sid "a" = .other "float64" "1" ∧
      Database.Len reader
          (Database.Set env (Database.Acquire creator st sid expires).2 sid "a" (.int 1)).2
          sid = 1) := by
  refine ⟨?_, ⟨rfl, fun _ => rfl, fun _ => rfl, fun _ => rfl, fun _ => rfl⟩, ?_⟩
  · intro env reader st sid key value s hrow hset hread
    obtain ⟨h1, h2, h3, h4⟩ := Set_observed env reader st sid key value s hrow hset hread
    refine ⟨h1, h2, h3, ?_⟩
    intro env2 key2 value2 hset2
    obtain ⟨g1, g2, -, -⟩ := Set_observed env2 reader _ sid key2 value2 _ h4 hset2 hread
    refine ⟨g1, fun hne => ?_⟩
    rw [g2 key hne, h1]
  · intro creator env reader st sid expires habs htx hset hread
    have hsid : sid ≠ "" := (Set_success env _ sid "a" (.int 1) hset).1
    have hst : (Database.Acquire creator st sid expires).2 =
        st ++ [⟨sid, ⟨none⟩, creator.now + expires⟩] := by
      rw [Acquire_created creator st sid expires hsid habs htx]
    rw [hst] at hset ⊢
    have hrow := firstRow_append_new st sid ⟨sid, ⟨none⟩, creator.now + expires⟩ habs rfl
    obtain ⟨h1, -, h3, -⟩ := Set_observed env reader _ sid "a" (.int 1) _ hrow hset hread
    refine ⟨h1, ?_⟩
    rw [h3, Len_eq _ _ _ hsid hread, hrow]
    simp [SessionData.Get, SessionData.Len]

/-- C2, at a concrete table: a session with the key `b`, then `Set` of `a`; and `Set` on a
session that was just acquired. -/
theorem Set_contract_witness :
    Database.Get (Env.healthy 7)
        (Database.Set (Env.healthy 6) [⟨"s", (⟨none⟩ : SessionData).Set "b" (.bool true), 100⟩]
          "s" "a" (.string "x")).2 "s" "a" = .string "x" ∧
    Database.Len (Env.healthy 7)
        (Database.Set (Env.healthy 6) (Database.Acquire (Env.healthy 5) [] "s" 10).2
          "s" "a" (.int 1)).2 "s" = 1 :=
  ⟨(Set_contract.1 (Env.healthy 6) (Env.healthy 7)
      [⟨"s", (⟨none⟩ : SessionData).Set "b" (.bool true), 100⟩] "s" "a" (.string "x")
      ⟨"s", (⟨none⟩ : SessionData).Set "b" (.bool true), 100⟩
      (by rfl) (by decide) (by decide)).1,
    (Set_contract.2.2 (Env.healthy 5) (Env.healthy 6) (Env.healthy 7) [] "s" 10
      (by decide) (by decide) (by decide) (by decide)).2⟩

/-- C2 fails as stated: the session `s` has a row, `Set("s", "a", 1)` succeeds, and
`Get("s", "a")` returns the `float64` that `encoding/json` decodes from the stored cell, not
the `int` that was set; a `[]byte` comes back as the string of its base64 encoding. And a
reader whose lookup is refused gets nil. -/
theorem Get_after_Set_is_decoded :
    (Database.Set (Env.healthy 6) [⟨"s", ⟨none⟩, 100⟩] "s" "a" (.int 1)).1 = none ∧
    Database.Get (Env.healthy 7)
      (Database.Set (Env.healthy 6) [⟨"s", ⟨none⟩, 100⟩] "s" "a" (.int 1)).2 "s" "a" =
        .other "float64" "1" ∧
    GoValue.other "float64" "1" ≠ .int 1 ∧
    (Database.Set (Env.healthy 6) [⟨"s", ⟨none⟩, 100⟩] "s" "a" (.bytes [120])).1 = none ∧
    Database.Get (Env.healthy 7)
      (Database.Set (Env.healthy 6) [⟨"s", ⟨none⟩, 100⟩] "s" "a" (.bytes [120])).2 "s" "a" =
        .string "eA==" ∧
    Database.Get { Env.healthy 7 with findErr := some "invalid connection" }
      (Database.Set (Env.healthy 6) [⟨"s", ⟨none⟩, 100⟩] "s" "a" (.int 1)).2 "s" "a" = .nil :=
  ⟨by decide, by decide, by decide, by decide, by decide, by decide⟩

/-! ## Clear -/

/-- `Clear` by cases on what the surroundings do. -/
theorem Clear_eq (env : Env) (st : Store) (sid : String) :
    Database.Clear env st sid =
      match Database.getGormSessionBySid env st sid with
      | none => (some "session not exist", st)
      | some _ =>
        match env.updatesErr sid with
        | some e => (some e, st)
        | none =>
          (none, st.map fun row =>
            if Gorm.condition sid row then { row with SessionData := ⟨some ∅⟩ } else row) := by
  unfold Database.Clear Gorm.Updates SessionData.Clear
  cases hg : Database.getGormSessionBySid env st sid <;> cases hu : env.updatesErr sid <;> simp

/-- A successful `Clear` has a non-empty identifier and gave the rows of `sid` the empty
map. -/
theorem Clear_success (env : Env) (st : Store) (sid : String)
    (h : (Database.Clear env st sid).1 = none) :
    sid ≠ "" ∧ (Database.Clear env st sid).2 = st.map fun row =>
      if whereSessionKey sid row then { row with SessionData := ⟨some ∅⟩ } else row := by
  have hu : env.updatesErr sid = none := by
    revert h
    rw [Clear_eq]
    cases hg : Database.getGormSessionBySid env st sid <;> cases hu : env.updatesErr sid <;>
      simp
  have hsid := sid_ne_of_updates env sid hu
  refine ⟨hsid, ?_⟩
  revert h
  rw [Clear_eq, condition_eq sid hsid]
  cases hg : Database.getGormSessionBySid env st sid <;> simp [hu]

/-- C4, as the code has it: after `Clear(sid)` succeeds on a session that has a row (`s` is
its first row), `Len(sid)` is 0 for every reader, the row is still in the table with its
`SessionKey` and `Expires` (no row of the table changes its key or expiry), and a following
`Acquire` whose lookup is answered and whose transaction succeeds returns the stored expiry
and inserts nothing. For a non-empty identifier without a row, `Clear` returns the error
`session not exist` and leaves the table unchanged. -/
theorem Clear_contract (env : Env) (st : Store) (sid : String) :
    (∀ s, st.find? (whereSessionKey sid) = some s →
      (Database.Clear env st sid).1 = none →
      (∀ reader, Database.Len reader (Database.Clear env st sid).2 sid = 0) ∧
      (Database.Clear env st sid).2.find? (whereSessionKey sid) =
        some ⟨s.SessionKey, ⟨some ∅⟩, s.Expires⟩ ∧
      (Database.Clear env st sid).2.map (fun row => (row.SessionKey, row.Expires)) =
        st.map (fun row => (row.SessionKey, row.Expires)) ∧
      (∀ (creator : Env) (expires : Duration), creator.findErr = none →
        (Database.acquireTx creator (Database.Clear env st sid).2 sid expires).1 = none →
        Database.Acquire creator (Database.Clear env st sid).2 sid expires =
          (⟨s.Expires⟩, (Database.Clear env st sid).2))) ∧
    (sid ≠ "" → (∀ row ∈ st, row.SessionKey ≠ sid) →
      Database.Clear env st sid = (some "session not exist", st)) := by
  constructor
  · intro s hrow hclear
    obtain ⟨hsid, hst⟩ := Clear_success env st sid hclear
    have hfirst : (Database.Clear env st sid).2.find? (whereSessionKey sid) =
        some ⟨s.SessionKey, ⟨some ∅⟩, s.Expires⟩ := by
      rw [hst, firstRow_updated st sid (fun row => { row with SessionData := ⟨some ∅⟩ })
        (fun _ => rfl), hrow]
      rfl
    refine ⟨?_, hfirst, ?_, ?_⟩
    · intro reader
      unfold Database.Len
      rw [getGormSessionBySid_eq, condition_eq sid hsid, hfirst]
      by_cases hr : reader.findErr = none
      · simp only [hr, if_true, Option.map_some', GormSession.scanned, readBack_Len]
        rfl
      · simp [hr]
    · rw [hst, keys_expires_updated]
    · intro creator expires hfind htx
      exact Acquire_found creator _ sid expires ⟨s.SessionKey, ⟨some ∅⟩, s.Expires⟩ hsid
        hfind hfirst htx
  · intro hsid habs
    rw [Clear_eq, lookup_none_of_absent env st sid hsid habs]

/-- C4, at a concrete table: a session with one key is cleared; an unknown one is not. -/
theorem Clear_contract_witness :
    (∀ reader, Database.Len reader
        (Database.Clear (Env.healthy 6)
          [⟨"s", (⟨none⟩ : SessionData).Set "a" (.int 1), 100⟩] "s").2 "s" = 0) ∧
    Database.Clear (Env.healthy 6) [⟨"s", (⟨none⟩ : SessionData).Set "a" (.int 1), 100⟩] "t" =
      (some "session not exist", [⟨"s", (⟨none⟩ : SessionData).Set "a" (.int 1), 100⟩]) :=
  ⟨((Clear_contract (Env.healthy 6)
        [⟨"s", (⟨none⟩ : SessionData).Set "a" (.int 1), 100⟩] "s").1
      ⟨"s", (⟨none⟩ : SessionData).Set "a" (.int 1), 100⟩ (by rfl) (by decide)).1,
    (Clear_contract (Env.healthy 6)
        [⟨"s", (⟨none⟩ : SessionData).Set "a" (.int 1), 100⟩] "t").2 (by decide) (by decide)⟩

/-- C4 fails as stated, twice. The table has no row for the empty identifier, yet the lookup
of `Clear("")`, which has no key condition, returns the row of `t`; the update is refused
and `Clear` returns `WHERE conditions required`, not `session not exist`. And after
`Clear("s")` has succeeded, an `Acquire("s", 10)` whose lookup fails does not find the row:
it returns the empty `LifeTime` and inserts a second row. -/
theorem Clear_empty_identifier_finds_a_row :
    (∀ row ∈ ([⟨"t", ⟨none⟩, 100⟩] : Store), row.SessionKey ≠ "") ∧
    Database.Clear (Env.healthy 6) [⟨"t", ⟨none⟩, 100⟩] "" =
      (some "WHERE conditions required", [⟨"t", ⟨none⟩, 100⟩]) ∧
    (Database.Clear (Env.healthy 6) [⟨"s", ⟨none⟩, 100⟩] "s").1 = none ∧
    Database.Acquire { Env.healthy 7 with findErr := some "invalid connection" }
      (Database.Clear (Env.healthy 6) [⟨"s", ⟨none⟩, 100⟩] "s").2 "s" 10 =
        (LifeTime.empty, [⟨"s", ⟨some ∅⟩, 100⟩, ⟨"s", ⟨none⟩, 17⟩]) :=
  ⟨by decide, by rfl, by decide, by rfl⟩

/-! ## Release -/

/-- `Release` by cases on what the surroundings do. -/
theorem Release_eq (env : Env) (st : Store) (sid : String) :
    Database.Release env st sid =
      match env.deleteErr sid with
      | some e => (some e, st)
      | none => (none, st.filter fun row => !Gorm.condition sid row) := by
  unfold Database.Release Gorm.Delete
  cases hd : env.deleteErr sid <;> simp

/-- C5: `Release(sid)` returns the error of the delete statement and nothing else, so it
returns no error when the statement is accepted, whether or not the table has a row for
`sid`. After an accepted `Release` the table has no row for `sid`, the rows of every other
identifier are the rows it had, in their order; a second `Release` leaves this table as it
is (and returns no error when accepted); `Get(sid, k)` is nil and `Len(sid)` is 0 for every
key and every reader. -/
theorem Release_contract (env : Env) (st : Store) (sid : String) :
    (Database.Release env st sid).1 = env.deleteErr sid ∧
    (env.deleteErr sid = none →
      (Database.Release env st sid).1 = none ∧
      (∀ row ∈ (Database.Release env st sid).2, row.SessionKey ≠ sid) ∧
      (∀ other, other ≠ sid →
        (Database.Release env st sid).2.filter (whereSessionKey other) =
          st.filter (whereSessionKey other)) ∧
      (Database.Release env st sid).2 = st.filter (fun row => !whereSessionKey sid row) ∧
      (∀ again : Env,
        (Database.Release again (Database.Release env st sid).2 sid).2 =
          (Database.Release env st sid).2 ∧
        (again.deleteErr sid = none →
          (Database.Release again (Database.Release env st sid).2 sid).1 = none)) ∧
      (∀ (reader : Env) (k : String),
        Database.Get reader (Database.Release env st sid).2 sid k = .nil ∧
        Database.Len reader (Database.Release env st sid).2 sid = 0)) := by
  constructor
  · rw [Release_eq]; cases hd : env.deleteErr sid <;> simp
  · intro hd
    have hsid := sid_ne_of_delete env sid hd
    have hst : Database.Release env st sid =
        (none, st.filter fun row => !whereSessionKey sid row) := by
      rw [Release_eq, hd, condition_eq sid hsid]
    have hnone := firstRow_removed st sid
    refine ⟨by rw [hst], ?_, ?_, by rw [hst], ?_, ?_⟩
    · intro row hrow
      rw [hst] at hrow
      have := (List.mem_filter.mp hrow).2
      simpa [whereSessionKey] using this
    · intro other hne
      rw [hst, List.filter_filter]
      apply List.filter_congr
      intro row _
      by_cases h : row.SessionKey = other
      · have : ¬ row.SessionKey = sid := fun e => hne (h ▸ e)
        simp [whereSessionKey, h, this, hne]
      · simp [whereSessionKey, h]
    · intro again
      rw [hst]
      constructor
      · rw [Release_eq, condition_eq sid hsid]
        cases again.deleteErr sid with
        | some e => rfl
        | none =>
          simp only [List.filter_filter]
          apply List.filter_congr
          intro row _
          simp
      · intro ha
        rw [Release_eq, ha]
    · intro reader k
      rw [hst]
      unfold Database.Get Database.Len
      rw [getGormSessionBySid_eq, condition_eq sid hsid, hnone]
      simp

/-- C5, at concrete tables: a known and an unknown identifier. -/
theorem Release_contract_witness :
    Database.Release (Env.healthy 9) [⟨"s", ⟨none⟩, 100⟩, ⟨"t", ⟨none⟩, 50⟩] "s" =
      (none, [⟨"t", ⟨none⟩, 50⟩]) ∧
    (Database.Release (Env.healthy 9) [⟨"t", ⟨none⟩, 50⟩] "s").1 = none :=
  ⟨Prod.ext ((Release_contract (Env.healthy 9)
        [⟨"s", ⟨none⟩, 100⟩, ⟨"t", ⟨none⟩, 50⟩] "s").2 rfl).1
      ((Release_contract (Env.healthy 9)
        [⟨"s", ⟨none⟩, 100⟩, ⟨"t", ⟨none⟩, 50⟩] "s").2 rfl).2.2.2.1,
    ((Release_contract (Env.healthy 9) [⟨"t", ⟨none⟩, 50⟩] "s").2 rfl).1⟩

/-! ## Delete -/

/-- `Delete` by cases on what the surroundings do. -/
theorem Delete_eq (env : Env) (st : Store) (sid key : String) :
    Database.Delete env st sid key =
      match Database.getGormSessionBySid env st sid with
      | none => (false, st)
      | some s =>
        match env.updatesErr sid with
        | some _ => (false, st)
        | none =>
          (true, st.map fun row =>
            if Gorm.condition sid row then
              { row with SessionData := s.SessionData.Delete key }
            else row) := by
  unfold Database.Delete Gorm.Updates
  cases hg : Database.getGormSessionBySid env st sid <;> cases hu : env.updatesErr sid <;> simp

/-- A `Delete` that returns true has a non-empty identifier, found the first row of `sid`
and replaced the bag of the rows of `sid` by the bag read from that row without the key. -/
theorem Delete_success (env : Env) (st : Store) (sid key : String)
    (h : (Database.Delete env st sid key).1 = true) :
    sid ≠ "" ∧ ∃ s, st.find? (whereSessionKey sid) = some s ∧
      (Database.Delete env st sid key).2 = st.map fun row =>
        if whereSessionKey sid row then
          { row with SessionData := s.SessionData.readBack.Delete key }
        else row := by
  have hu : env.updatesErr sid = none := by
    revert h
    rw [Delete_eq]
    cases hg : Database.getGormSessionBySid env st sid <;> cases hu : env.updatesErr sid <;>
      simp
  have hsid := sid_ne_of_updates env sid hu
  refine ⟨hsid, ?_⟩
  rw [Delete_eq] at h ⊢
  rw [getGormSessionBySid_eq, condition_eq sid hsid] at h ⊢
  cases hf : env.findErr <;> cases hg : st.find? (whereSessionKey sid) <;>
    simp_all [GormSession.scanned]

/-- C7: after `Delete(sid, key)` returns true (the persistence call succeeded) on a session
whose first row is `s`, a reader whose lookup is answered gets nil from `Get(sid, key)`,
reads every other key as before, and `Len(sid)` is one less when the key was in the bag and
unchanged when it was not. When the bag held exactly the key `a` and `a` is deleted,
`Len(sid)` is 0 and the row is still in the table, with its key and expiry, and its bag is
stored as the empty object. -/
theorem Delete_contract (env reader : Env) (st : Store) (sid key : String) (s : GormSession)
    (hrow : st.find? (whereSessionKey sid) = some s)
    (hdel : (Database.Delete env st sid key).1 = true)
    (hread : reader.findErr = none) :
    Database.Get reader (Database.Delete env st sid key).2 sid key = .nil ∧
    (∀ k, k ≠ key →
      Database.Get reader (Database.Delete env st sid key).2 sid k =
        Database.Get reader st sid k) ∧
    Database.Len reader (Database.Delete env st sid key).2 sid =
      (if (s.SessionData.Get key).2 = none then Database.Len reader st sid - 1
       else Database.Len reader st sid) ∧
    (∀ m : GoMap, s.SessionData.data = some m → m.keys = ["a"] → key = "a" →
      Database.Len reader (Database.Delete env st sid key).2 sid = 0 ∧
      ∃ row, (Database.Delete env st sid key).2.find? (whereSessionKey sid) = some row ∧
        row.SessionKey = s.SessionKey ∧ row.Expires = s.Expires ∧
        ∀ codec, row.SessionData.Value codec = .ok emptyObjectBytes) := by
  obtain ⟨hsid, s', hs', hst⟩ := Delete_success env st sid key hdel
  have hss : s' = s := by rw [hrow] at hs'; exact (Option.some.inj hs').symm
  subst hss
  have hfirst : (Database.Delete env st sid key).2.find? (whereSessionKey sid) =
      some { s' with SessionData := s'.SessionData.readBack.Delete key } := by
    rw [hst, firstRow_updated st sid
      (fun row => { row with SessionData := s'.SessionData.readBack.Delete key })
      (fun _ => rfl), hrow]
    rfl
  have hlen : Database.Len reader (Database.Delete env st sid key).2 sid =
      (if (s'.SessionData.Get key).2 = none then Database.Len reader st sid - 1
       else Database.Len reader st sid) := by
    rw [Len_eq _ _ _ hsid hread, Len_eq _ _ _ hsid hread, hfirst, hrow]
    simp [Delete_Len, readBack_Get, readBack_Len]
  refine ⟨?_, ?_, hlen, ?_⟩
  · rw [Get_eq _ _ _ _ hsid hread, hfirst]
    simp [Delete_Get_same]
  · intro k hk
    rw [Get_eq _ _ _ _ hsid hread, Get_eq _ _ _ _ hsid hread, hfirst, hrow]
    simp [Delete_Get_other _ _ _ hk, readBack_Get, jsonDecoded_idem]
  · intro m hm hkeys hkey
    have hmem : key ∈ m := by
      rw [AList.mem_keys, hkeys, hkey]; simp
    have hpresent : (s'.SessionData.Get key).2 = none :=
      (Get_err_eq_none_iff _ _).mpr ⟨m, hm, hmem⟩
    have hlen0 : Database.Len reader st sid = 1 := by
      rw [Len_eq _ _ _ hsid hread, hrow]
      have : m.entries.length = m.keys.length := by simp [AList.keys, List.keys]
      simp [SessionData.Len, hm, this, hkeys]
    have hzero : Database.Len reader (Database.Delete env st sid key).2 sid = 0 := by
      rw [hlen, if_pos hpresent, hlen0]
    refine ⟨hzero, _, hfirst, rfl, rfl, fun codec => ?_⟩
    apply Value_of_Len_zero
    rw [Len_eq _ _ _ hsid hread, hfirst] at hzero
    exact hzero

/-- C7, at a concrete table: the only key of a session is deleted. -/
theorem Delete_contract_witness :
    Database.Get (Env.healthy 7)
        (Database.Delete (Env.healthy 6)
          [⟨"s", (⟨none⟩ : SessionData).Set "a" (.int 1), 100⟩] "s" "a").2 "s" "a" = .nil ∧
    Database.Len (Env.healthy 7)
        (Database.Delete (Env.healthy 6)
          [⟨"s", (⟨none⟩ : SessionData).Set "a" (.int 1), 100⟩] "s" "a").2 "s" = 0 :=
  ⟨(Delete_contract (Env.healthy 6) (Env.healthy 7)
      [⟨"s", (⟨none⟩ : SessionData).Set "a" (.int 1), 100⟩] "s" "a"
      ⟨"s", (⟨none⟩ : SessionData).Set "a" (.int 1), 100⟩ (by rfl) (by decide) (by decide)).1,
    ((Delete_contract (Env.healthy 6) (Env.healthy 7)
      [⟨"s", (⟨none⟩ : SessionData).Set "a" (.int 1), 100⟩] "s" "a"
      ⟨"s", (⟨none⟩ : SessionData).Set "a" (.int 1), 100⟩ (by rfl) (by decide)
      (by decide)).2.2.2 (AList.singleton "a" (.int 1)) (by rfl) (by rfl) rfl).1⟩

/-- C6, as the code has it: `Delete(sid, key)` returns false exactly when the lookup returns
no row (no row for `sid`, or the query is refused) or the persistence call is refused;
whether `key` is in the bag has no influence. So it returns false for every identifier
without a row, and true for a session that has a row, lacks the key, and whose lookup and
update are accepted. -/
theorem Delete_result (env : Env) (st : Store) (sid key : String) :
    ((Database.Delete env st sid key).1 = false ↔
      Database.getGormSessionBySid env st sid = none ∨ env.updatesErr sid ≠ none) ∧
    ((∀ row ∈ st, row.SessionKey ≠ sid) → (Database.Delete env st sid key).1 = false) ∧
    (∀ s, st.find? (whereSessionKey sid) = some s → (s.SessionData.Get key).2 ≠ none →
      env.findErr = none → env.updatesErr sid = none →
      (Database.Delete env st sid key).1 = true) := by
  refine ⟨?_, ?_, ?_⟩
  · rw [Delete_eq]
    cases hg : Database.getGormSessionBySid env st sid <;> cases hu : env.updatesErr sid <;>
      simp
  · intro habs
    by_cases hsid : sid = ""
    · have hu : env.updatesErr sid ≠ none := by
        rw [hsid]; exact env.updatesRefused
      rw [Delete_eq]
      cases hg : Database.getGormSessionBySid env st sid <;>
        cases hu2 : env.updatesErr sid <;> simp_all
    · rw [Delete_eq, lookup_none_of_absent env st sid hsid habs]
  · intro s hrow _ hfind hupd
    have hsid := sid_ne_of_updates env sid hupd
    have hs : Database.getGormSessionBySid env st sid = some s.scanned := by
      rw [lookup_of_key env st sid hsid hfind, hrow]; rfl
    rw [Delete_eq, hs, hupd]

/-- C6, at concrete tables: no row gives false, a row without the key gives true. -/
theorem Delete_result_witness :
    (Database.Delete (Env.healthy 6) [⟨"t", ⟨some ∅⟩, 100⟩] "s" "a").1 = false ∧
    (Database.Delete (Env.healthy 6) [⟨"s", ⟨some ∅⟩, 100⟩] "s" "a").1 = true :=
  ⟨(Delete_result (Env.healthy 6) [⟨"t", ⟨some ∅⟩, 100⟩] "s" "a").2.1 (by decide),
    (Delete_result (Env.healthy 6) [⟨"s", ⟨some ∅⟩, 100⟩] "s" "a").2.2 ⟨"s", ⟨some ∅⟩, 100⟩
      (by rfl) (by decide) (by decide) (by decide)⟩

/-- C6 fails as stated: the session `s` has a row, its bag does not contain the key `a`,
and `Delete("s", "a")` returns true. -/
theorem Delete_absent_key_returns_true :
    (∃ row ∈ ([⟨"s", ⟨some ∅⟩, 100⟩] : Store), row.SessionKey = "s") ∧
    ((⟨some ∅⟩ : SessionData).Get "a").2 ≠ none ∧
    (Database.Delete (Env.healthy 6) [⟨"s", ⟨some ∅⟩, 100⟩] "s" "a").1 = true :=
  ⟨⟨⟨"s", ⟨some ∅⟩, 100⟩, by simp, rfl⟩, by decide, by decide⟩

/-! ## OnUpdateExpiration -/

/-- `OnUpdateExpiration` by cases on what the surroundings do. -/
theorem OnUpdateExpiration_eq (env : Env) (st : Store) (sid : String) (newExpires : Duration) :
    Database.OnUpdateExpiration env st sid newExpires =
      match env.updatesErr sid with
      | some _ => (some "update expiration failed", st)
      | none =>
        (none, st.map fun row =>
          if Gorm.condition sid row then { row with Expires := env.now + newExpires }
          else row) := by
  unfold Database.OnUpdateExpiration Gorm.Updates
  cases hu : env.updatesErr sid <;> simp

/-- C3, as the code has it: `OnUpdateExpiration(sid, newExpires)` returns the error
`update expiration failed` exactly when the update statement is refused. For an identifier
without a row and an accepted statement (which matches no row) it returns nil and leaves
the table unchanged. -/
theorem OnUpdateExpiration_result (env : Env) (st : Store) (sid : String)
    (newExpires : Duration) :
    (Database.OnUpdateExpiration env st sid newExpires).1 =
      (if env.updatesErr sid = none then none else some "update expiration failed") ∧
    ((∀ row ∈ st, row.SessionKey ≠ sid) → env.updatesErr sid = none →
      Database.OnUpdateExpiration env st sid newExpires = (none, st)) := by
  constructor
  · rw [OnUpdateExpiration_eq]
    cases hu : env.updatesErr sid <;> simp
  · intro habs hu
    rw [OnUpdateExpiration_eq, hu, condition_eq sid (sid_ne_of_updates env sid hu)]
    simp only
    rw [updated_of_absent st sid _ habs]

/-- C3, at concrete tables: an unknown identifier with an accepted statement, and a refused
statement. -/
theorem OnUpdateExpiration_result_witness :
    Database.OnUpdateExpiration (Env.healthy 6) [⟨"t", ⟨none⟩, 100⟩] "s" 10 =
      (none, [⟨"t", ⟨none⟩, 100⟩]) ∧
    (Database.OnUpdateExpiration
      { Env.healthy 6 with
        updatesErr := fun _ => some "bad connection", updatesRefused := by decide }
      [⟨"t", ⟨none⟩, 100⟩] "s" 10).1 = some "update expiration failed" :=
  ⟨(OnUpdateExpiration_result (Env.healthy 6) [⟨"t", ⟨none⟩, 100⟩] "s" 10).2
      (by decide) (by decide),
    (OnUpdateExpiration_result
      { Env.healthy 6 with
        updatesErr := fun _ => some "bad connection", updatesRefused := by decide }
      [⟨"t", ⟨none⟩, 100⟩] "s" 10).1⟩

/-- C3 fails as stated: the table has no row for `s`, the update statement is accepted, and
`OnUpdateExpiration("s", 10)` returns nil. -/
theorem OnUpdateExpiration_unknown_returns_nil :
    (∀ row ∈ ([⟨"t", ⟨none⟩, 100⟩] : Store), row.SessionKey ≠ "s") ∧
    (Env.healthy 6).updatesErr "s" = none ∧
    (Database.OnUpdateExpiration (Env.healthy 6) [⟨"t", ⟨none⟩, 100⟩] "s" 10).1 = none :=
  ⟨by decide, rfl, by decide⟩

/-- C8, as the code has it: after `OnUpdateExpiration(sid, newExpires)` succeeds on a session
whose first row is `s`, that row has `Expires = now + newExpires` whatever `s.Expires` was,
as has every row of `sid`; the rows of other identifiers keep their expiry. So the new
expiry is at or after the old one exactly when `now + newExpires` is. -/
theorem OnUpdateExpiration_sets (env : Env) (st : Store) (sid : String) (newExpires : Duration)
    (s : GormSession) (hrow : st.find? (whereSessionKey sid) = some s)
    (hok : (Database.OnUpdateExpiration env st sid newExpires).1 = none) :
    (Database.OnUpdateExpiration env st sid newExpires).2.find? (whereSessionKey sid) =
      some ⟨s.SessionKey, s.SessionData, env.now + newExpires⟩ ∧
    (∀ row ∈ (Database.OnUpdateExpiration env st sid newExpires).2,
      row.SessionKey = sid → row.Expires = env.now + newExpires) ∧
    (∀ other, other ≠ sid →
      (Database.OnUpdateExpiration env st sid newExpires).2.find? (whereSessionKey other) =
        st.find? (whereSessionKey other)) ∧
    (∀ row, (Database.OnUpdateExpiration env st sid newExpires).2.find? (whereSessionKey sid) =
        some row → (s.Expires ≤ row.Expires ↔ s.Expires ≤ env.now + newExpires)) := by
  have hu : env.updatesErr sid = none := by
    revert hok
    rw [OnUpdateExpiration_eq]
    cases hu : env.updatesErr sid <;> simp
  have hsid := sid_ne_of_updates env sid hu
  have hst : (Database.OnUpdateExpiration env st sid newExpires).2 = st.map fun row =>
      if whereSessionKey sid row then { row with Expires := env.now + newExpires }
      else row := by
    rw [OnUpdateExpiration_eq, hu, condition_eq sid hsid]
  have hfirst : (Database.OnUpdateExpiration env st sid newExpires).2.find?
      (whereSessionKey sid) = some ⟨s.SessionKey, s.SessionData, env.now + newExpires⟩ := by
    rw [hst, firstRow_updated st sid (fun row => { row with Expires := env.now + newExpires })
      (fun _ => rfl), hrow]
    rfl
  refine ⟨hfirst, ?_, ?_, ?_⟩
  · intro row hmem hkey
    rw [hst, List.mem_map] at hmem
    obtain ⟨r, _, hr⟩ := hmem
    by_cases h : whereSessionKey sid r = true
    · rw [if_pos h] at hr; rw [← hr]
    · rw [if_neg h] at hr
      rw [hr] at h
      exact absurd (by simpa [whereSessionKey] using hkey) h
  · intro other hne
    rw [hst, firstRow_updated_other st sid other
      (fun row => { row with Expires := env.now + newExpires }) (fun _ => rfl) hne]
  · intro row hr
    rw [hfirst] at hr
    rw [← Option.some.inj hr]

/-- C8, at a concrete table: a refresh that moves the expiry from 100 to 2000. -/
theorem OnUpdateExpiration_sets_witness :
    (Database.OnUpdateExpiration (Env.healthy 1000) [⟨"s", ⟨none⟩, 100⟩] "s" 1000).2.find?
      (whereSessionKey "s") = some ⟨"s", ⟨none⟩, 2000⟩ :=
  (OnUpdateExpiration_sets (Env.healthy 1000) [⟨"s", ⟨none⟩, 100⟩] "s" 1000
    ⟨"s", ⟨none⟩, 100⟩ (by rfl) (by decide)).1

/-- C8 fails as stated: the row of `s` expires at 5000, at time 1000 the expiry is refreshed
with the duration 60, the call succeeds, and the stored expiry is 1060, before 5000. -/
theorem OnUpdateExpiration_moves_back :
    (Database.OnUpdateExpiration (Env.healthy 1000) [⟨"s", ⟨none⟩, 5000⟩] "s" 60).1 = none ∧
    (Database.OnUpdateExpiration (Env.healthy 1000) [⟨"s", ⟨none⟩, 5000⟩] "s" 60).2.map
      (fun row => row.Expires) = [1060] ∧
    ¬ ((5000 : GoTime) ≤ 1060) :=
  ⟨by decide, by decide, by decide⟩

/-! ## The codec -/

/-- An empty-object document is not the `null` document. -/
theorem not_null_of_emptyObject (b : Bytes) (h : isEmptyObjectDocument b = true) :
    isNullDocument b = false := by
  unfold isEmptyObjectDocument at h
  unfold isNullDocument
  split at h
  · rename_i rest heq
    rw [heq]
    simp [nullBytes]
  · cases h

/-- A bag whose map is nil or has no entries: its map, if any, is the empty map. -/
theorem data_of_Len_zero (sd : SessionData) (h : sd.Len = 0) : sd.data.getD ∅ = ∅ := by
  cases hd : sd.data with
  | none => rfl
  | some m =>
    apply AList.ext
    simp only [SessionData.Len, hd] at h
    simpa using List.length_eq_zero.mp h

/-- `Scan` of an empty-object document into a bag whose map is nil or has no entries. -/
theorem Scan_emptyObject (codec : JSONCodec) (sd : SessionData) (b : Bytes)
    (hsd : sd.Len = 0) (hb : isEmptyObjectDocument b = true) :
    sd.Scan codec (.bytes b) = (none, ⟨some ∅⟩) := by
  unfold SessionData.Scan SessionData.UnmarshalJSON jsonUnmarshal
  simp [not_null_of_emptyObject b hb, hb, data_of_Len_zero sd hsd]

/-- What is read back for a bag whose map is nil or has no entries: the empty map. -/
theorem readBack_of_Len_zero (sd : SessionData) (h : sd.Len = 0) :
    sd.readBack = ⟨some ∅⟩ := by
  unfold SessionData.readBack
  rw [data_of_Len_zero sd h]
  rfl

/-- C9: for every bag whose map is nil or has no entries, `Value()` returns exactly the two
bytes of the empty object, with no error, never `null` (which is what `MarshalJSON` alone
gives for a nil map). `Scan` of these two bytes succeeds and yields a bag with `Len() = 0`,
so `Scan(Value(empty bag))` is the empty bag, the bag that a read of the table returns for
it. And for every valid serialized empty-object representation `b`, that is every cell that
`Value()` writes for a bag without entries, `Scan(b)` succeeds and `Value(Scan(b)) = b`. -/
theorem codec_empty_bag (codec : JSONCodec) (sd : SessionData) (hsd : sd.Len = 0) :
    sd.Value codec = .ok emptyObjectBytes ∧
    sd.Value codec ≠ .ok nullBytes ∧
    (⟨none⟩ : SessionData).MarshalJSON codec = .ok nullBytes ∧
    (∀ receiver : SessionData, receiver.Len = 0 →
      (receiver.Scan codec (.bytes emptyObjectBytes)).1 = none ∧
      (receiver.Scan codec (.bytes emptyObjectBytes)).2.Len = 0) ∧
    (∀ (receiver : SessionData) (cell : Bytes), receiver.Len = 0 →
      sd.Value codec = .ok cell →
      (receiver.Scan codec (.bytes cell)).1 = none ∧
      (receiver.Scan codec (.bytes cell)).2.Len = 0 ∧
      (receiver.Scan codec (.bytes cell)).2 = sd.readBack) ∧
    (∀ (receiver : SessionData) (b : Bytes), receiver.Len = 0 →
      (∃ bag : SessionData, bag.Len = 0 ∧ bag.Value codec = .ok b) →
      (receiver.Scan codec (.bytes b)).1 = none ∧
      (receiver.Scan codec (.bytes b)).2.Value codec = .ok b) := by
  have hval : sd.Value codec = .ok emptyObjectBytes := Value_of_Len_zero codec sd hsd
  have hcanon : isEmptyObjectDocument emptyObjectBytes = true := by decide
  refine ⟨hval, ?_, rfl, ?_, ?_, ?_⟩
  · rw [hval]
    intro h
    injection h with h
    revert h
    decide
  · intro receiver hr
    rw [Scan_emptyObject codec receiver _ hr hcanon]
    exact ⟨rfl, rfl⟩
  · intro receiver cell hr hcell
    rw [hval] at hcell
    have : cell = emptyObjectBytes := by injection hcell with h; exact h.symm
    subst this
    rw [Scan_emptyObject codec receiver _ hr hcanon, readBack_of_Len_zero sd hsd]
    exact ⟨rfl, rfl, rfl⟩
  · intro receiver b hr hb
    obtain ⟨bag, hbag, hcell⟩ := hb
    rw [Value_of_Len_zero codec bag hbag] at hcell
    have : b = emptyObjectBytes := by injection hcell with h; exact h.symm
    subst this
    rw [Scan_emptyObject codec receiver _ hr hcanon]
    exact ⟨rfl, rfl⟩

/-- C9, at concrete bags: the nil map and the map without entries. -/
theorem codec_empty_bag_witness :
    (⟨none⟩ : SessionData).Value ⟨fun _ => .error "unsupported", fun _ => .error "syntax"⟩ =
      .ok emptyObjectBytes ∧
    (((⟨none⟩ : SessionData).Scan ⟨fun _ => .error "unsupported", fun _ => .error "syntax"⟩
      (.bytes emptyObjectBytes)).2.Value
        ⟨fun _ => .error "unsupported", fun _ => .error "syntax"⟩) = .ok emptyObjectBytes :=
  ⟨(codec_empty_bag ⟨fun _ => .error "unsupported", fun _ => .error "syntax"⟩ ⟨none⟩ rfl).1,
    ((codec_empty_bag ⟨fun _ => .error "unsupported", fun _ => .error "syntax"⟩ ⟨some ∅⟩
      rfl).2.2.2.2.2 ⟨none⟩ emptyObjectBytes rfl ⟨⟨some ∅⟩, rfl, rfl⟩).2⟩

/-! ## decodeValue -/

/-- C10, as the code has it: `decodeValue(val, outPtr)` returns nil for a nil `val` and
leaves `outPtr` alone; for a `[]byte` or a `string` its result is exactly the result of the
transcoder's `Unmarshal` on those bytes; for every other value (a number, a boolean, a
nested object, ...) it fails with `unknown value type of T`, `T` the dynamic type, and
leaves `outPtr` alone. -/
theorem decodeValue_result {Out : Type} (T : Transcoder Out) (val : GoValue) (outPtr : Out) :
    (val = .nil → Database.decodeValue T val outPtr = (none, outPtr)) ∧
    (∀ data, val = .bytes data → Database.decodeValue T val outPtr = T.Unmarshal data outPtr) ∧
    (∀ s, val = .string s →
      Database.decodeValue T val outPtr = T.Unmarshal s.toUTF8.data.toList outPtr) ∧
    (val ≠ .nil → (∀ data, val ≠ .bytes data) → (∀ s, val ≠ .string s) →
      Database.decodeValue T val outPtr =
        (some ("unknown value type of " ++ val.typeName), outPtr)) := by
  refine ⟨?_, ?_, ?_, ?_⟩
  · intro h; subst h; rfl
  · intro data h; subst h; rfl
  · intro s h; subst h; rfl
  · intro hnil hbytes hstring
    cases val with
    | nil => exact absurd rfl hnil
    | bytes data => exact absurd rfl (hbytes data)
    | string s => exact absurd rfl (hstring s)
    | bool b => rfl
    | int n => rfl
    | other goType printed => rfl

/-- C10, at concrete values: a number is refused, bytes go to the transcoder. -/
theorem decodeValue_result_witness :
    Database.decodeValue (⟨fun b _ => (none, b.length)⟩ : Transcoder Nat) (.int 3) 0 =
      (some "unknown value type of int", 0) ∧
    Database.decodeValue (⟨fun b _ => (none, b.length)⟩ : Transcoder Nat) (.bytes [1, 2]) 0 =
      (none, 2) :=
  ⟨(decodeValue_result (⟨fun b _ => (none, b.length)⟩ : Transcoder Nat) (.int 3) 0).2.2.2
      (by decide) (by intro data; exact GoValue.noConfusion)
      (by intro s; exact GoValue.noConfusion),
    (decodeValue_result (⟨fun b _ => (none, b.length)⟩ : Transcoder Nat) (.bytes [1, 2])
      0).2.1 [1, 2] rfl⟩

/-- C10 fails as stated: a nil value is neither a `[]byte` nor a `string`, and `decodeValue`
returns nil for it, even with a transcoder that refuses every input. -/
theorem decodeValue_nil_returns_nil :
    (∀ data, GoValue.nil ≠ .bytes data) ∧ (∀ s, GoValue.nil ≠ .string s) ∧
    Database.decodeValue (⟨fun _ out => (some "EOF", out)⟩ : Transcoder Nat) .nil 0 =
      (none, 0) :=
  ⟨fun _ => GoValue.noConfusion, fun _ => GoValue.noConfusion, rfl⟩

/-- A number written by `Set` is read back as a `float64`, and `Decode` hands it to
`decodeValue`, which refuses it: the stored values are not the `[]byte` that the comment in
`decodeValue` speaks of. -/
theorem Decode_of_stored_number :
    (Database.Set (Env.healthy 6) [⟨"s", ⟨none⟩, 100⟩] "s" "a" (.int 1)).1 = none ∧
    Database.Decode (⟨fun b _ => (none, b.length)⟩ : Transcoder Nat) (Env.healthy 7)
      (Database.Set (Env.healthy 6) [⟨"s", ⟨none⟩, 100⟩] "s" "a" (.int 1)).2 "s" "a" 0 =
      (some "unknown value type of float64", 0) :=
  ⟨by decide, by decide⟩

end SessionDB
